import Mathlib

/-! Verification of the real-time agent-interaction client of the Alex-COO
frontend: the dual-channel WebSocket client (lib/websocket.ts) and the
zustand state stores (lib/store.ts), shallowly embedded as pure Lean
functions over explicit state. JavaScript Date values are modelled as
epoch numbers (Nat); localStorage is modelled as an association list that
holds the already-parsed JSON payloads (JSON.stringify/parse round-trip). -/

namespace AlexCoo

/-- ChartConfig from lib/types.ts; rows of data (Record with unknown values)
are modelled as association lists of string-keyed atoms. The client code
under verification only carries chart values around, never inspects them. -/
structure ChartConfig where
  type : String
  title : String
  data : List (List (String × String))
  xKey : String
  yKeys : List String
  colors : Option (List String)
deriving DecidableEq

/-- ChatMessage from lib/types.ts. -/
structure ChatMessage where
  id : String
  role : String
  content : String
  charts : Option (List ChartConfig)
  timestamp : Nat
deriving DecidableEq

/-- ThoughtEvent from lib/types.ts. The type field is the wire string (the
TypeScript cast to ThoughtEventType performs no runtime validation; a
missing thought_type is modelled as the empty string). -/
structure ThoughtEvent where
  type : String
  content : String
  metadata : Option String
  timestamp : Nat
deriving DecidableEq

/-- WSChatResponse from lib/websocket.ts. sendChatMessage never populates
the optional intent field (it stays undefined, modelled as none). -/
structure WSChatResponse where
  reply : String
  charts : List ChartConfig
  intent : Option String
  session_id : String
deriving DecidableEq

/-- JavaScript `a || b` on an optional string: undefined and the empty
string are falsy and fall through to the default. -/
def jsOrString (o : Option String) (dflt : String) : String :=
  match o with
  | some s => if s = "" then dflt else s
  | none => dflt

/-- JavaScript `a || b` on an optional number: undefined and 0 are falsy. -/
def jsOrNat (o : Option Nat) (dflt : Nat) : Nat :=
  match o with
  | some n => if n = 0 then dflt else n
  | none => dflt

/-- State of the JavaScript Promise returned by sendChatMessage. -/
inductive PromiseState where
  | pending
  | fulfilled (r : WSChatResponse)
  | rejected (msg : String)
deriving DecidableEq

/-- Resolving a promise: only the first resolution wins (JS semantics). -/
def PromiseState.resolve (p : PromiseState) (r : WSChatResponse) : PromiseState :=
  match p with
  | .pending => .fulfilled r
  | _ => p

/-- Rejecting a promise: a settled promise is unchanged (JS semantics). -/
def PromiseState.reject (p : PromiseState) (msg : String) : PromiseState :=
  match p with
  | .pending => .rejected msg
  | _ => p

def PromiseState.isSettled : PromiseState → Bool
  | .pending => false
  | _ => true

def PromiseState.isFulfilled : PromiseState → Bool
  | .fulfilled _ => true
  | _ => false

/-- State visible to one sendChatMessage exchange: the closure-local
responseData, the pending promise, whether chatSocket.close() was called,
plus the thought-store and chat-store fields the handlers touch. -/
structure ExchangeState where
  responseData : Option WSChatResponse
  promise : PromiseState
  socketCloseRequested : Bool
  thoughts : List ThoughtEvent
  isProcessing : Bool
  isLoading : Bool
deriving DecidableEq

/-- Parsed inbound JSON frame on the chat socket, discriminated by its
type field exactly as the onmessage handler does. -/
structure ChatFrame where
  type : String
  thought_type : Option String
  content : Option String
  metadata : Option String
  reply : Option String
  charts : Option (List ChartConfig)
  session_id : Option String
deriving DecidableEq

/-- First sequential branch of the onmessage handler: data.type equal to
"thought" appends a ThoughtEvent and sets processing for thinking and
executing_sql kinds (no branch ever clears it here). -/
def chatThoughtBranch (now : Nat) (st : ExchangeState) (data : ChatFrame) : ExchangeState :=
  if data.type = "thought" then
    let thought : ThoughtEvent :=
      { type := data.thought_type.getD "", content := data.content.getD "",
        metadata := data.metadata, timestamp := now }
    let st := { st with thoughts := st.thoughts ++ [thought] }
    if thought.type = "thinking" ∨ thought.type = "executing_sql" then
      { st with isProcessing := true }
    else st
  else st

/-- Second branch: data.type equal to "response" records the authoritative
response object and clears the processing and loading flags. -/
def chatResponseBranch (sessionId : String) (st : ExchangeState) (data : ChatFrame) : ExchangeState :=
  if data.type = "response" then
    { st with
        responseData := some
          { reply := data.reply.getD "", charts := data.charts.getD [],
            intent := none, session_id := jsOrString data.session_id sessionId },
        isProcessing := false, isLoading := false }
  else st

/-- Third branch: data.type equal to "done" or "response" closes the socket
and resolves the promise if responseData has been recorded. -/
def chatTerminatorBranch (st : ExchangeState) (data : ChatFrame) : ExchangeState :=
  if data.type = "done" ∨ data.type = "response" then
    let st := { st with socketCloseRequested := true }
    match st.responseData with
    | some r => { st with promise := st.promise.resolve r }
    | none => st
  else st

/-- Fourth branch: data.type equal to "error" clears the flags, rejects the
promise with the frame content (or a default), and closes the socket. -/
def chatErrorBranch (st : ExchangeState) (data : ChatFrame) : ExchangeState :=
  if data.type = "error" then
    let st := { st with isProcessing := false, isLoading := false }
    let st := { st with promise := st.promise.reject (jsOrString data.content "Chat error") }
    { st with socketCloseRequested := true }
  else st

/-- Full onmessage handler of sendChatMessage for one successfully parsed
frame: the four sequential if-branches of the source, in order. -/
def onChatFrame (sessionId : String) (now : Nat) (st : ExchangeState) (data : ChatFrame) : ExchangeState :=
  chatErrorBranch (chatTerminatorBranch (chatResponseBranch sessionId (chatThoughtBranch now st data) data) data) data

/-- Events delivered to the chat socket callbacks after dispatch. -/
inductive ChatSocketEvent where
  | message (data : ChatFrame)
  | badMessage
  | socketError
  | socketClosed
deriving DecidableEq

/-- One callback invocation: onmessage (parsed or unparseable), onerror, or
onclose, as written in sendChatMessage. -/
def chatSocketStep (sessionId : String) (now : Nat) (st : ExchangeState) (ev : ChatSocketEvent) : ExchangeState :=
  match ev with
  | .message data => onChatFrame sessionId now st data
  | .badMessage => st
  | .socketError =>
      { st with isProcessing := false, isLoading := false,
                promise := st.promise.reject "Could not connect to Alex. Is the backend running?" }
  | .socketClosed =>
      match st.responseData with
      | some r => { st with promise := st.promise.resolve r }
      | none => st

/-- Exchange state right after dispatch: no response seen, promise pending;
handleSend has set both the loading and processing flags. -/
def initExchange : ExchangeState :=
  { responseData := none, promise := .pending, socketCloseRequested := false,
    thoughts := [], isProcessing := true, isLoading := true }

/-- Folding a sequence of socket events from a given exchange state. -/
def runChatFrom (sessionId : String) (now : Nat) (st : ExchangeState) (evs : List ChatSocketEvent) : ExchangeState :=
  evs.foldl (chatSocketStep sessionId now) st

/-- Whole exchange: events applied from the initial dispatched state. -/
def runChatExchange (sessionId : String) (now : Nat) (evs : List ChatSocketEvent) : ExchangeState :=
  runChatFrom sessionId now initExchange evs

/-- Event carries a frame with type "response". -/
def ChatSocketEvent.isResponseFrame : ChatSocketEvent → Bool
  | .message d => d.type == "response"
  | _ => false

/-- Event carries a frame with type "error". -/
def ChatSocketEvent.isErrorFrame : ChatSocketEvent → Bool
  | .message d => d.type == "error"
  | _ => false

/-- Event is the onerror callback firing. -/
def ChatSocketEvent.isSocketError : ChatSocketEvent → Bool
  | .socketError => true
  | _ => false

/-- Raw inbound frame on the ambient thought stream after JSON.parse:
the fields the onmessage handler of connectThoughtStream reads. -/
structure RawThoughtFrame where
  type : Option String
  content : Option String
  metadata : Option String
  timestamp : Option Nat
deriving DecidableEq

/-- Ambient thought store slice touched by the stream handler. -/
structure AmbientState where
  thoughts : List ThoughtEvent
  isProcessing : Bool
deriving DecidableEq

/-- The onmessage handler of connectThoughtStream: an unparseable payload
(none) is ignored silently; otherwise the event is classified, appended,
and the processing latch is set for thinking/executing_sql and cleared for
found_insight/generating_chart/error. -/
def onThoughtStreamMessage (now : Nat) (st : AmbientState) (parsed : Option RawThoughtFrame) : AmbientState :=
  match parsed with
  | none => st
  | some raw =>
      let thought : ThoughtEvent :=
        { type := raw.type.getD "", content := jsOrString raw.content "",
          metadata := raw.metadata, timestamp := jsOrNat raw.timestamp now }
      let st := { st with thoughts := st.thoughts ++ [thought] }
      let st :=
        if thought.type = "thinking" ∨ thought.type = "executing_sql" then
          { st with isProcessing := true }
        else st
      if thought.type = "found_insight" ∨ thought.type = "generating_chart" ∨
          thought.type = "error" then
        { st with isProcessing := false }
      else st

/-- Module-level connection state of the ambient thought stream: whether
the thoughtSocket variable holds a socket and whether a reconnect timer is
pending. Socket readyState distinctions are elided: hasSocket means the
module variable is non-null. -/
structure ThoughtStreamState where
  hasSocket : Bool
  reconnectTimerPending : Bool
deriving DecidableEq

/-- The connectThoughtStream entry: with a healthy socket already present
it returns without creating another; otherwise it creates the socket. -/
def connectThoughtStreamStep (st : ThoughtStreamState) : ThoughtStreamState :=
  if st.hasSocket then st else { st with hasSocket := true }

/-- The onclose handler installed on the thought socket: nulls the module
socket variable and, when no reconnect timer is pending, schedules one.
The browser dispatches this close event also for a socket that was closed
locally via close(), since the handler is never detached. -/
def thoughtStreamOnClose (st : ThoughtStreamState) : ThoughtStreamState :=
  let st := { st with hasSocket := false }
  if st.reconnectTimerPending = false then { st with reconnectTimerPending := true } else st

/-- The onopen handler: clears a pending reconnect timer. -/
def thoughtStreamOnOpen (st : ThoughtStreamState) : ThoughtStreamState :=
  if st.reconnectTimerPending then { st with reconnectTimerPending := false } else st

/-- disconnectThoughtStream, the canceller returned by connectThoughtStream:
clears a pending reconnect timer, closes the socket, and nulls the module
variable. -/
def disconnectThoughtStream (st : ThoughtStreamState) : ThoughtStreamState :=
  let st := if st.reconnectTimerPending then { st with reconnectTimerPending := false } else st
  if st.hasSocket then { st with hasSocket := false } else st

/-- Firing of the scheduled reconnect timer: the callback nulls the timer
variable and calls connectThoughtStream again. -/
def reconnectTimerFire (st : ThoughtStreamState) : ThoughtStreamState :=
  connectThoughtStreamStep { st with reconnectTimerPending := false }

/-- Outcome of the awaited sendChatMessage call inside handleSend. -/
inductive Outcome where
  | success (r : WSChatResponse)
  | failure
deriving DecidableEq

/-- Application-level effects the handleSend continuation can apply after
the exchange settles. The dashboard title that handleSend derives from the
message text by a presentational regex strip is not modelled further; the
effect carries the source message and the authoritative payload. -/
inductive ChatEffect where
  | appendMessage (m : ChatMessage)
  | createDashboardFromMessage (message reply : String) (charts : List ChartConfig)
  | setLoadingFalse
  | setProcessingFalse
deriving DecidableEq

/-- Effects of the try/catch body of handleSend after the awaited exchange
settles, given the abort flag at resumption time (single-threaded: the flag
cannot change between the checks of one resumption). -/
def handleSendTryEffects (abortFlag : Bool) (message : String) (now : Nat) (outcome : Outcome) : List ChatEffect :=
  match outcome with
  | .success response =>
      if abortFlag then []
      else
        let charts : Option (List ChartConfig) :=
          if response.charts.length > 0 then some response.charts else none
        let dashEffects :=
          if response.intent = some "dashboard" ∧ charts.isSome then
            [ChatEffect.createDashboardFromMessage message (jsOrString (some response.reply) "") response.charts]
          else []
        let msgEffects :=
          if abortFlag = false then
            [ChatEffect.appendMessage
              { id := "assistant-" ++ toString now, role := "assistant",
                content := jsOrString (some response.reply) "", charts := charts, timestamp := now }]
          else []
        dashEffects ++ msgEffects
  | .failure =>
      if abortFlag = false then
        [ChatEffect.appendMessage
          { id := "error-" ++ toString now, role := "assistant",
            content := "Sorry, I hit a snag. Could you rephrase?", charts := none, timestamp := now }]
      else []

/-- Effects of the finally block of handleSend: flags are cleared only when
the exchange was not aborted. -/
def handleSendFinallyEffects (abortFlag : Bool) : List ChatEffect :=
  if abortFlag = false then [ChatEffect.setLoadingFalse, ChatEffect.setProcessingFalse] else []

/-- Complete effect list of the handleSend continuation (try/catch body,
then the finally block, which runs even after the early abort return). -/
def handleSendResume (abortFlag : Bool) (message : String) (now : Nat) (outcome : Outcome) : List ChatEffect :=
  handleSendTryEffects abortFlag message now outcome ++ handleSendFinallyEffects abortFlag

/-- SavedConversation from lib/store.ts; the ISO updatedAt string is
modelled by its epoch value, which orders identically. -/
structure SavedConversation where
  id : String
  title : String
  messages : List ChatMessage
  updatedAt : Nat
deriving DecidableEq

/-- titleFromMessages from lib/store.ts: content of the first user message
truncated to 50 units, with an ellipsis when truncation happened. -/
def titleFromMessages (msgs : List ChatMessage) : String :=
  match msgs.find? (fun m => m.role == "user") with
  | none => "New conversation"
  | some first => first.content.take 50 ++ (if 50 < first.content.length then "..." else "")

/-- Array.prototype.findIndex, with the not-found result -1 modelled as
none. -/
def jsFindIndex (p : SavedConversation → Bool) : List SavedConversation → Option Nat
  | [] => none
  | c :: cs => if p c then some 0 else (jsFindIndex p cs).map (· + 1)

/-- Stable insertion for the recency sort: the inserted element walks past
strictly more recent records and lands before the first record that is not
more recent, matching the stable Array.prototype.sort with the comparator
on getTime values in descending order. -/
def insertByRecency (c : SavedConversation) : List SavedConversation → List SavedConversation
  | [] => [c]
  | d :: ds => if c.updatedAt < d.updatedAt then d :: insertByRecency c ds else c :: d :: ds

/-- Stable sort by updatedAt descending, as performed on the upserted
history before persisting. -/
def sortByRecency : List SavedConversation → List SavedConversation
  | [] => []
  | c :: cs => insertByRecency c (sortByRecency cs)

/-- Slice of the chat store touched by history archival, plus the persisted
localStorage collection under the chat-history key. -/
@[ext]
structure ChatStoreState where
  messages : List ChatMessage
  sessionId : String
  history : List SavedConversation
  persistedHistory : List SavedConversation
deriving DecidableEq

/-- saveCurrentToHistory from lib/store.ts: a no-op on an empty message
log; otherwise upserts the current conversation by session id, re-sorts by
recency, stores the full list in memory and its first 30 records in
localStorage (saveHistory slices to 30). -/
def saveCurrentToHistory (st : ChatStoreState) (now : Nat) : ChatStoreState :=
  if st.messages = [] then st
  else
    let convo : SavedConversation :=
      { id := st.sessionId, title := titleFromMessages st.messages,
        messages := st.messages, updatedAt := now }
    let updated :=
      match jsFindIndex (fun c => c.id == st.sessionId) st.history with
      | some i => st.history.set i convo
      | none => convo :: st.history
    let sorted := sortByRecency updated
    { st with history := sorted, persistedHistory := sorted.take 30 }

/-- Record produced by archiving a session with a given message log at a
given time. -/
def mkRecord (t : Nat) (sid : String) (msgs : List ChatMessage) : SavedConversation :=
  { id := sid, title := titleFromMessages msgs, messages := msgs, updatedAt := t }

/-- Records produced by archiving a list of sessions at consecutive times
starting from t0, in archive order. -/
def mkRecords (t0 : Nat) : List (String × List ChatMessage) → List SavedConversation
  | [] => []
  | (sid, msgs) :: rest => mkRecord t0 sid msgs :: mkRecords (t0 + 1) rest

/-- Driver archiving a list of sessions one after the other: each step
loads the session into the store (id and message log) and flushes it via
saveCurrentToHistory; the i-th flush happens at time t0 + i. -/
def archiveFrom (st : ChatStoreState) (t0 : Nat) : List (String × List ChatMessage) → ChatStoreState
  | [] => st
  | (sid, msgs) :: rest =>
      archiveFrom (saveCurrentToHistory { st with sessionId := sid, messages := msgs } t0) (t0 + 1) rest

/-- Archiving a session list into a fresh store with empty localStorage. -/
def archiveSessions (sessions : List (String × List ChatMessage)) : ChatStoreState :=
  archiveFrom { messages := [], sessionId := "", history := [], persistedHistory := [] } 0 sessions

/-- Value held under a dashboard key in localStorage: either a string that
JSON.parse maps to a chart list, or one it rejects. -/
inductive StoredValue where
  | charts (cs : List ChartConfig)
  | malformed
deriving DecidableEq

/-- LocalStorage for dashboard keys, modelled as an association list where
the most recent setItem for a key shadows earlier entries. -/
abbrev DashStorage := List (String × StoredValue)

def storageGet (s : DashStorage) (k : String) : Option StoredValue :=
  (List.find? (fun p => p.1 == k) s).map Prod.snd

def storageSet (s : DashStorage) (k : String) (v : StoredValue) : DashStorage :=
  (k, v) :: s

/-- DashboardContext from lib/types.ts. -/
structure DashboardContext where
  id : String
  title : String
  charts : List ChartConfig
deriving DecidableEq

/-- loadPersistedCharts from lib/store.ts: reads the dashboard key; a
missing or unparseable value yields null. -/
def loadPersistedCharts (storage : DashStorage) (id : String) : Option (List ChartConfig) :=
  match storageGet storage ("dashboard-" ++ id) with
  | none => none
  | some (StoredValue.charts cs) => some cs
  | some StoredValue.malformed => none

/-- setDashboard of useActiveDashboardStore: on a non-null artifact, a
non-empty persisted chart list for its id overrides the incoming charts. -/
def setDashboard (storage : DashStorage) (dashboard : Option DashboardContext) : Option DashboardContext :=
  match dashboard with
  | some d =>
      match loadPersistedCharts storage d.id with
      | some saved => if saved.length > 0 then some { d with charts := saved } else some d
      | none => some d
  | none => none

/-- Array.prototype.filter with the index predicate of removeChart: keeps
every element whose position differs from the given index. Positions are
JavaScript numbers, so the index may be negative. -/
def jsFilterOutIndex (index : Int) : Nat → List ChartConfig → List ChartConfig
  | _, [] => []
  | i, c :: cs =>
      if (i : Int) = index then jsFilterOutIndex index (i + 1) cs
      else c :: jsFilterOutIndex index (i + 1) cs

/-- removeChart of useActiveDashboardStore: with no active dashboard the
state and storage are untouched; otherwise the chart at the given position
is filtered out and the resulting list is persisted under the dashboard
key (persistDashboard). -/
def removeChart (st : Option DashboardContext) (storage : DashStorage) (index : Int) :
    Option DashboardContext × DashStorage :=
  match st with
  | none => (none, storage)
  | some d =>
      let updated : DashboardContext := { d with charts := jsFilterOutIndex index 0 d.charts }
      (some updated, storageSet storage ("dashboard-" ++ d.id) (StoredValue.charts updated.charts))

/-- Sortedness by recency: updatedAt values are non-increasing, most
recent first. -/
def SortedByRecency (l : List SavedConversation) : Prop :=
  List.Pairwise (fun a b => b.updatedAt ≤ a.updatedAt) l

/-- Content view of a persisted record: everything except the updatedAt
stamp. -/
def stripTime (c : SavedConversation) : String × String × List ChatMessage :=
  (c.id, c.title, c.messages)

/-- Concrete sample chart used by witnesses and counterexamples. -/
def chartEx : ChartConfig :=
  { type := "bar", title := "Revenue", data := [], xKey := "x", yKeys := ["y"], colors := none }

/-- Concrete sample user message used by witnesses. -/
def userMsgEx : ChatMessage :=
  { id := "m1", role := "user", content := "hello", charts := none, timestamp := 0 }

/-- Concrete per-exchange thought frame carrying a found_insight kind. -/
def insightThoughtFrame : ChatFrame :=
  { type := "thought", thought_type := some "found_insight", content := some "x",
    metadata := none, reply := none, charts := none, session_id := none }

/-- Concrete response frame for witnesses. -/
def responseFrameEx : ChatFrame :=
  { type := "response", thought_type := none, content := none, metadata := none,
    reply := some "ok", charts := some [], session_id := some "s1" }

/-- Concrete done frame for witnesses. -/
def doneFrameEx : ChatFrame :=
  { type := "done", thought_type := none, content := none, metadata := none,
    reply := none, charts := none, session_id := none }

/-- Concrete thinking thought frame for witnesses. -/
def thinkingThoughtFrame : ChatFrame :=
  { type := "thought", thought_type := some "thinking", content := some "hmm",
    metadata := none, reply := none, charts := none, session_id := none }

/-- Concrete store with one unflushed user message, used by witnesses. -/
def storeEx : ChatStoreState :=
  { messages := [userMsgEx], sessionId := "sess", history := [], persistedHistory := [] }

/-- Concrete run of 31 distinct sessions, used by the retention witness. -/
def sessions31 : List (String × List ChatMessage) :=
  (List.range 31).map (fun i => ("s" ++ toString i, [userMsgEx]))

lemma jsFilterOutIndex_out_of_range (index : Int) :
    ∀ (cs : List ChartConfig) (i : Nat),
      (index < (i : Int) ∨ (i : Int) + cs.length ≤ index) →
      jsFilterOutIndex index i cs = cs := by
  intro cs
  induction cs with
  | nil => intro i _; rfl
  | cons c cs ih =>
      intro i h
      have hne : (i : Int) ≠ index := by
        simp only [List.length_cons] at h
        omega
      have hrec : index < ((i + 1 : Nat) : Int) ∨ ((i + 1 : Nat) : Int) + cs.length ≤ index := by
        simp only [List.length_cons] at h
        push_cast
        push_cast at h
        omega
      simp [jsFilterOutIndex, hne, ih (i + 1) hrec]

/-- C10: calling saveCurrentToHistory with an empty in-memory message log
is a complete no-op: no record is created or updated and both the
in-memory history and the persisted collection are unchanged. -/
theorem c10_empty_flush (st : ChatStoreState) (now : Nat) (h : st.messages = []) :
    saveCurrentToHistory st now = st := by
  simp [saveCurrentToHistory, h]

/-- Witness for c10_empty_flush at a concrete store. -/
theorem c10_empty_flush_witness :
    (({ messages := [], sessionId := "s", history := [], persistedHistory := [] } : ChatStoreState).messages = [])
    ∧ saveCurrentToHistory { messages := [], sessionId := "s", history := [], persistedHistory := [] } 7 =
        { messages := [], sessionId := "s", history := [], persistedHistory := [] } :=
  ⟨rfl, c10_empty_flush _ 7 rfl⟩

/-- C6: activating a non-null artifact whose id has a persisted chart list
that parses and is non-empty yields an active dashboard whose charts equal
the persisted list, not the list passed in with the artifact. -/
theorem c6_artifact_override (storage : DashStorage) (d : DashboardContext)
    (saved : List ChartConfig) (hload : loadPersistedCharts storage d.id = some saved)
    (hne : saved ≠ []) :
    setDashboard storage (some d) = some { d with charts := saved } := by
  have hpos : saved.length > 0 := List.length_pos.mpr hne
  simp [setDashboard, hload, hpos]

/-- Witness for c6_artifact_override at a concrete storage and artifact. -/
theorem c6_artifact_override_witness :
    (loadPersistedCharts [("dashboard-d1", StoredValue.charts [chartEx])] "d1" = some [chartEx]
      ∧ [chartEx] ≠ ([] : List ChartConfig))
    ∧ setDashboard [("dashboard-d1", StoredValue.charts [chartEx])]
        (some { id := "d1", title := "T", charts := [] }) =
        some { id := "d1", title := "T", charts := [chartEx] } :=
  ⟨⟨by decide, by decide⟩,
   c6_artifact_override [("dashboard-d1", StoredValue.charts [chartEx])]
     { id := "d1", title := "T", charts := [] } [chartEx] (by decide) (by decide)⟩

/-- C9: removeChart with a position outside the chart list leaves the
active chart list unchanged while still re-writing the unchanged list to
persistence under the dashboard key. -/
theorem c9_remove_out_of_range (d : DashboardContext) (storage : DashStorage) (index : Int)
    (h : index < 0 ∨ (d.charts.length : Int) ≤ index) :
    (removeChart (some d) storage index).1 = some d ∧
    storageGet (removeChart (some d) storage index).2 ("dashboard-" ++ d.id) =
      some (StoredValue.charts d.charts) := by
  have hfix : jsFilterOutIndex index 0 d.charts = d.charts := by
    apply jsFilterOutIndex_out_of_range
    simpa using h
  constructor
  · simp [removeChart, hfix]
  · simp [removeChart, hfix, storageGet, storageSet]

/-- Witness for c9_remove_out_of_range at a concrete dashboard and index 5. -/
theorem c9_remove_out_of_range_witness :
    ((5 : Int) < 0 ∨ ((({ id := "d1", title := "T", charts := [chartEx] } : DashboardContext).charts.length : Int) ≤ 5))
    ∧ ((removeChart (some { id := "d1", title := "T", charts := [chartEx] }) [] 5).1 =
          some { id := "d1", title := "T", charts := [chartEx] }
        ∧ storageGet (removeChart (some { id := "d1", title := "T", charts := [chartEx] }) [] 5).2
            ("dashboard-" ++ ({ id := "d1", title := "T", charts := [chartEx] } : DashboardContext).id) =
          some (StoredValue.charts ({ id := "d1", title := "T", charts := [chartEx] } : DashboardContext).charts)) :=
  ⟨by decide, c9_remove_out_of_range { id := "d1", title := "T", charts := [chartEx] } [] 5 (by decide)⟩

/-- C4: when the abort flag is set before the exchange settles, the
handleSend continuation applies no effect at all on resumption: no message
is appended, no dashboard is created, and no flag mutation occurs. -/
theorem c4_abort_suppresses_effects (message : String) (now : Nat) (outcome : Outcome) :
    handleSendResume true message now outcome = [] := by
  cases outcome <;>
    simp [handleSendResume, handleSendTryEffects, handleSendFinallyEffects]

lemma insertByRecency_perm (c : SavedConversation) (l : List SavedConversation) :
    List.Perm (insertByRecency c l) (c :: l) := by
  induction l with
  | nil => exact List.Perm.refl _
  | cons d ds ih =>
      unfold insertByRecency
      split
      · exact (ih.cons d).trans (List.Perm.swap c d ds)
      · exact List.Perm.refl _

lemma sortByRecency_perm (l : List SavedConversation) : List.Perm (sortByRecency l) l := by
  induction l with
  | nil => exact List.Perm.refl _
  | cons c cs ih =>
      exact (insertByRecency_perm c (sortByRecency cs)).trans (ih.cons c)

lemma mem_sortByRecency {a : SavedConversation} {l : List SavedConversation} :
    a ∈ sortByRecency l ↔ a ∈ l :=
  (sortByRecency_perm l).mem_iff

lemma insertByRecency_sorted (c : SavedConversation) {l : List SavedConversation}
    (h : SortedByRecency l) : SortedByRecency (insertByRecency c l) := by
  induction l with
  | nil => simp [insertByRecency, SortedByRecency]
  | cons d ds ih =>
      obtain ⟨hd, hds⟩ := List.pairwise_cons.mp h
      unfold insertByRecency
      split
      · rename_i hlt
        refine List.pairwise_cons.mpr ⟨?_, ih hds⟩
        intro b hb
        rcases List.mem_cons.mp ((insertByRecency_perm c ds).mem_iff.mp hb) with rfl | hb
        · exact le_of_lt hlt
        · exact hd b hb
      · rename_i hge
        refine List.pairwise_cons.mpr ⟨?_, h⟩
        intro b hb
        rcases List.mem_cons.mp hb with rfl | hb
        · exact not_lt.mp hge
        · exact le_trans (hd b hb) (not_lt.mp hge)

lemma sortByRecency_sorted (l : List SavedConversation) : SortedByRecency (sortByRecency l) := by
  induction l with
  | nil => exact List.Pairwise.nil
  | cons c cs ih => exact insertByRecency_sorted c ih

lemma insertByRecency_front (c : SavedConversation) {l : List SavedConversation}
    (h : ∀ d ∈ l, d.updatedAt ≤ c.updatedAt) : insertByRecency c l = c :: l := by
  cases l with
  | nil => rfl
  | cons d ds =>
      unfold insertByRecency
      rw [if_neg (not_lt.mpr (h d (List.mem_cons_self d ds)))]

lemma sortByRecency_of_sorted : ∀ {l : List SavedConversation},
    SortedByRecency l → sortByRecency l = l := by
  intro l
  induction l with
  | nil => intro _; rfl
  | cons c cs ih =>
      intro h
      obtain ⟨hc, hcs⟩ := List.pairwise_cons.mp h
      show insertByRecency c (sortByRecency cs) = c :: cs
      rw [ih hcs]
      exact insertByRecency_front c hc

lemma insertByRecency_cons_of_lt (a c : SavedConversation) (l : List SavedConversation)
    (h : a.updatedAt < c.updatedAt) :
    insertByRecency a (c :: l) = c :: insertByRecency a l := by
  simp only [insertByRecency]
  rw [if_pos h]

lemma sortByRecency_max_front : ∀ (A : List SavedConversation) (c : SavedConversation)
    (B : List SavedConversation),
    (∀ d, d ∈ A ∨ d ∈ B → d.updatedAt < c.updatedAt) →
    sortByRecency (A ++ c :: B) = c :: sortByRecency (A ++ B) := by
  intro A
  induction A with
  | nil =>
      intro c B h
      show insertByRecency c (sortByRecency B) = c :: sortByRecency B
      apply insertByRecency_front
      intro d hd
      exact le_of_lt (h d (Or.inr (mem_sortByRecency.mp hd)))
  | cons a A ih =>
      intro c B h
      show insertByRecency a (sortByRecency (A ++ c :: B)) = c :: sortByRecency (a :: A ++ B)
      rw [ih c B (fun d hd => h d (by rcases hd with hd | hd
                                      · exact Or.inl (List.mem_cons_of_mem a hd)
                                      · exact Or.inr hd))]
      rw [insertByRecency_cons_of_lt a c _ (h a (Or.inl (List.mem_cons_self a A)))]
      rfl

lemma jsFindIndex_eq_none {p : SavedConversation → Bool} :
    ∀ {l : List SavedConversation}, jsFindIndex p l = none → ∀ c ∈ l, p c = false := by
  intro l
  induction l with
  | nil => intro _ c hc; cases hc
  | cons d ds ih =>
      intro h c hc
      unfold jsFindIndex at h
      by_cases hp : p d = true
      · rw [if_pos hp] at h; cases h
      · rw [if_neg hp] at h
        rcases List.mem_cons.mp hc with rfl | hc
        · exact Bool.eq_false_iff.mpr hp
        · exact ih (Option.map_eq_none'.mp h) c hc

lemma jsFindIndex_split {p : SavedConversation → Bool} :
    ∀ {l : List SavedConversation} {i : Nat}, jsFindIndex p l = some i →
      ∃ A x B, l = A ++ x :: B ∧ p x = true ∧ A.length = i := by
  intro l
  induction l with
  | nil => intro i h; cases h
  | cons d ds ih =>
      intro i h
      unfold jsFindIndex at h
      by_cases hp : p d = true
      · rw [if_pos hp] at h
        refine ⟨[], d, ds, rfl, hp, ?_⟩
        cases h; rfl
      · rw [if_neg hp] at h
        obtain ⟨j, hj, hij⟩ := Option.map_eq_some'.mp h
        obtain ⟨A, x, B, hsplit, hpx, hlen⟩ := ih hj
        refine ⟨d :: A, x, B, by rw [hsplit]; rfl, hpx, ?_⟩
        subst hij
        simp [hlen]

lemma set_at_append : ∀ (A : List SavedConversation) (x : SavedConversation)
    (B : List SavedConversation) (y : SavedConversation),
    (A ++ x :: B).set A.length y = A ++ y :: B := by
  intro A
  induction A with
  | nil => intro x B y; rfl
  | cons a A ih =>
      intro x B y
      show a :: (A ++ x :: B).set A.length y = a :: (A ++ y :: B)
      rw [ih]

lemma PromiseState.resolve_of_isSettled {p : PromiseState} (h : p.isSettled = true)
    (r : WSChatResponse) : p.resolve r = p := by
  cases p with
  | pending => simp [PromiseState.isSettled] at h
  | fulfilled _ => rfl
  | rejected _ => rfl

lemma PromiseState.reject_of_isSettled {p : PromiseState} (h : p.isSettled = true)
    (msg : String) : p.reject msg = p := by
  cases p with
  | pending => simp [PromiseState.isSettled] at h
  | fulfilled _ => rfl
  | rejected _ => rfl

lemma chatThoughtBranch_responseData (now : Nat) (st : ExchangeState) (d : ChatFrame) :
    (chatThoughtBranch now st d).responseData = st.responseData := by
  unfold chatThoughtBranch
  split
  · dsimp only
    split <;> rfl
  · rfl

lemma chatThoughtBranch_promise (now : Nat) (st : ExchangeState) (d : ChatFrame) :
    (chatThoughtBranch now st d).promise = st.promise := by
  unfold chatThoughtBranch
  split
  · dsimp only
    split <;> rfl
  · rfl

lemma chatResponseBranch_promise (sid : String) (st : ExchangeState) (d : ChatFrame) :
    (chatResponseBranch sid st d).promise = st.promise := by
  unfold chatResponseBranch
  split <;> rfl

lemma chatResponseBranch_not (sid : String) (st : ExchangeState) (d : ChatFrame)
    (h : d.type ≠ "response") : chatResponseBranch sid st d = st := by
  simp [chatResponseBranch, h]

lemma chatTerminatorBranch_responseData (st : ExchangeState) (d : ChatFrame) :
    (chatTerminatorBranch st d).responseData = st.responseData := by
  unfold chatTerminatorBranch
  split
  · dsimp only
    split <;> rfl
  · rfl

lemma chatTerminatorBranch_not (st : ExchangeState) (d : ChatFrame)
    (h : ¬(d.type = "done" ∨ d.type = "response")) : chatTerminatorBranch st d = st := by
  simp [chatTerminatorBranch, h]

lemma chatTerminatorBranch_promise_of_none (st : ExchangeState) (d : ChatFrame)
    (h : st.responseData = none) : (chatTerminatorBranch st d).promise = st.promise := by
  unfold chatTerminatorBranch
  split
  · dsimp only
    rw [h]
  · rfl

lemma chatTerminatorBranch_promise_of_settled (st : ExchangeState) (d : ChatFrame)
    (h : st.promise.isSettled = true) : (chatTerminatorBranch st d).promise = st.promise := by
  unfold chatTerminatorBranch
  split
  · dsimp only
    rcases hr : st.responseData with _ | r
    · rfl
    · dsimp only
      exact PromiseState.resolve_of_isSettled h r
  · rfl

lemma chatErrorBranch_responseData (st : ExchangeState) (d : ChatFrame) :
    (chatErrorBranch st d).responseData = st.responseData := by
  unfold chatErrorBranch
  split <;> rfl

lemma chatErrorBranch_not (st : ExchangeState) (d : ChatFrame)
    (h : d.type ≠ "error") : chatErrorBranch st d = st := by
  simp [chatErrorBranch, h]

lemma chatErrorBranch_promise_of_settled (st : ExchangeState) (d : ChatFrame)
    (h : st.promise.isSettled = true) : (chatErrorBranch st d).promise = st.promise := by
  unfold chatErrorBranch
  split
  · dsimp only
    exact PromiseState.reject_of_isSettled h _
  · rfl

lemma chatSocketStep_promise_of_settled (sid : String) (now : Nat) (st : ExchangeState)
    (ev : ChatSocketEvent) (h : st.promise.isSettled = true) :
    (chatSocketStep sid now st ev).promise = st.promise := by
  cases ev with
  | message d =>
      show (onChatFrame sid now st d).promise = st.promise
      unfold onChatFrame
      have h1 : (chatThoughtBranch now st d).promise = st.promise :=
        chatThoughtBranch_promise now st d
      have h2 : (chatResponseBranch sid (chatThoughtBranch now st d) d).promise = st.promise := by
        rw [chatResponseBranch_promise, h1]
      have h2s : (chatResponseBranch sid (chatThoughtBranch now st d) d).promise.isSettled = true := by
        rw [h2]; exact h
      have h3 : (chatTerminatorBranch (chatResponseBranch sid (chatThoughtBranch now st d) d) d).promise = st.promise := by
        rw [chatTerminatorBranch_promise_of_settled _ _ h2s, h2]
      have h3s : (chatTerminatorBranch (chatResponseBranch sid (chatThoughtBranch now st d) d) d).promise.isSettled = true := by
        rw [h3]; exact h
      rw [chatErrorBranch_promise_of_settled _ _ h3s, h3]
  | badMessage => rfl
  | socketError =>
      show (st.promise.reject _) = st.promise
      exact PromiseState.reject_of_isSettled h _
  | socketClosed =>
      unfold chatSocketStep
      rcases hr : st.responseData with _ | r
      · rfl
      · dsimp only
        exact PromiseState.resolve_of_isSettled h r

lemma runChatFrom_promise_of_settled (evs : List ChatSocketEvent) :
    ∀ (sid : String) (now : Nat) (st : ExchangeState), st.promise.isSettled = true →
      (runChatFrom sid now st evs).promise = st.promise := by
  induction evs with
  | nil => intro sid now st _; rfl
  | cons e evs ih =>
      intro sid now st h
      have hstep := chatSocketStep_promise_of_settled sid now st e h
      have hset : (chatSocketStep sid now st e).promise.isSettled = true := by
        rw [hstep]; exact h
      show (runChatFrom sid now (chatSocketStep sid now st e) evs).promise = st.promise
      rw [ih sid now _ hset, hstep]

/-- C2: the promise returned by sendChatMessage settles at most once: once
it is settled after any event prefix, any further frames (done, response,
error) or socket close leave its settlement untouched — only the first
fulfillment or rejection wins. -/
theorem c2_single_settlement (sid : String) (now : Nat) (evs extra : List ChatSocketEvent)
    (h : (runChatExchange sid now evs).promise.isSettled = true) :
    (runChatExchange sid now (evs ++ extra)).promise = (runChatExchange sid now evs).promise := by
  have happ : runChatExchange sid now (evs ++ extra) =
      runChatFrom sid now (runChatExchange sid now evs) extra := by
    simp [runChatExchange, runChatFrom, List.foldl_append]
  rw [happ]
  exact runChatFrom_promise_of_settled extra sid now _ h

/-- Witness for c2_single_settlement: a response frame settles the promise
and a subsequent done frame plus socket close leave the settlement as is. -/
theorem c2_single_settlement_witness :
    ((runChatExchange "s1" 0 [ChatSocketEvent.message responseFrameEx]).promise.isSettled = true)
    ∧ (runChatExchange "s1" 0 ([ChatSocketEvent.message responseFrameEx] ++
          [ChatSocketEvent.message doneFrameEx, ChatSocketEvent.socketClosed])).promise =
        (runChatExchange "s1" 0 [ChatSocketEvent.message responseFrameEx]).promise :=
  ⟨by decide, c2_single_settlement "s1" 0 [ChatSocketEvent.message responseFrameEx]
      [ChatSocketEvent.message doneFrameEx, ChatSocketEvent.socketClosed] (by decide)⟩

lemma chatSocketStep_quiet (sid : String) (now : Nat) (st : ExchangeState) (e : ChatSocketEvent)
    (hrd : st.responseData = none) (hp : st.promise = PromiseState.pending)
    (h1 : e.isResponseFrame = false) (h2 : e.isErrorFrame = false) (h3 : e.isSocketError = false) :
    (chatSocketStep sid now st e).responseData = none ∧
    (chatSocketStep sid now st e).promise = PromiseState.pending := by
  cases e with
  | message d =>
      have hdr : d.type ≠ "response" := by
        simpa [ChatSocketEvent.isResponseFrame] using h1
      have hde : d.type ≠ "error" := by
        simpa [ChatSocketEvent.isErrorFrame] using h2
      show (onChatFrame sid now st d).responseData = none ∧
        (onChatFrame sid now st d).promise = PromiseState.pending
      unfold onChatFrame
      rw [chatResponseBranch_not sid _ d hdr, chatErrorBranch_not _ d hde]
      have e1 : (chatThoughtBranch now st d).responseData = none := by
        rw [chatThoughtBranch_responseData]; exact hrd
      constructor
      · rw [chatTerminatorBranch_responseData]; exact e1
      · rw [chatTerminatorBranch_promise_of_none _ d e1, chatThoughtBranch_promise]; exact hp
  | badMessage => exact ⟨hrd, hp⟩
  | socketError => simp [ChatSocketEvent.isSocketError] at h3
  | socketClosed =>
      unfold chatSocketStep
      rw [hrd]
      exact ⟨hrd, hp⟩

lemma runChatFrom_quiet (evs : List ChatSocketEvent) :
    ∀ (sid : String) (now : Nat) (st : ExchangeState),
      st.responseData = none → st.promise = PromiseState.pending →
      (∀ e ∈ evs, e.isResponseFrame = false ∧ e.isErrorFrame = false ∧ e.isSocketError = false) →
      (runChatFrom sid now st evs).responseData = none ∧
      (runChatFrom sid now st evs).promise = PromiseState.pending := by
  induction evs with
  | nil => intro sid now st hrd hp _; exact ⟨hrd, hp⟩
  | cons e evs ih =>
      intro sid now st hrd hp hq
      obtain ⟨he1, he2, he3⟩ := hq e (List.mem_cons_self e evs)
      obtain ⟨hrd2, hp2⟩ := chatSocketStep_quiet sid now st e hrd hp he1 he2 he3
      exact ih sid now _ hrd2 hp2 (fun x hx => hq x (List.mem_cons_of_mem e hx))

/-- C1 counterexample: the socket of an exchange closes cleanly before any
response or error frame arrived; the claim says the promise still resolves
successfully, but in the code the promise is left pending (never settled). -/
theorem c1_counterexample :
    (runChatExchange "s1" 0 [ChatSocketEvent.socketClosed]).promise = PromiseState.pending ∧
    (runChatExchange "s1" 0 [ChatSocketEvent.socketClosed]).promise.isFulfilled = false := by
  decide

/-- C1 (amended): a connection close without a prior error is a success
terminator only when a response frame has already been recorded — the
close handler then resolves with the accumulated response; when the socket
closes before any response or error frame, the promise stays pending
forever instead of resolving with empty fields. -/
theorem c1_amended (sid : String) (now : Nat) :
    (∀ evs : List ChatSocketEvent,
        (∀ e ∈ evs, e.isResponseFrame = false ∧ e.isErrorFrame = false ∧ e.isSocketError = false) →
        (runChatExchange sid now (evs ++ [ChatSocketEvent.socketClosed])).promise = PromiseState.pending)
    ∧ (∀ (st : ExchangeState) (r : WSChatResponse), st.responseData = some r →
        (chatSocketStep sid now st ChatSocketEvent.socketClosed).promise = st.promise.resolve r) := by
  constructor
  · intro evs hq
    have happ : runChatExchange sid now (evs ++ [ChatSocketEvent.socketClosed]) =
        runChatFrom sid now (runChatExchange sid now evs) [ChatSocketEvent.socketClosed] := by
      simp [runChatExchange, runChatFrom, List.foldl_append]
    obtain ⟨hrd, hp⟩ := runChatFrom_quiet evs sid now initExchange rfl rfl hq
    have hrd2 : (runChatExchange sid now evs).responseData = none := hrd
    have hp2 : (runChatExchange sid now evs).promise = PromiseState.pending := hp
    rw [happ]
    show (chatSocketStep sid now (runChatExchange sid now evs) ChatSocketEvent.socketClosed).promise =
      PromiseState.pending
    unfold chatSocketStep
    rw [hrd2]
    exact hp2
  · intro st r hr
    unfold chatSocketStep
    rw [hr]

/-- Witness for c1_amended: a thought frame followed by a clean close
leaves the promise pending, and a close after an accumulated response
resolves with it. -/
theorem c1_amended_witness :
    ((∀ e ∈ [ChatSocketEvent.message thinkingThoughtFrame],
        e.isResponseFrame = false ∧ e.isErrorFrame = false ∧ e.isSocketError = false)
      ∧ (runChatExchange "s1" 0 ([ChatSocketEvent.message thinkingThoughtFrame] ++
          [ChatSocketEvent.socketClosed])).promise = PromiseState.pending)
    ∧ (({ initExchange with responseData := some { reply := "ok", charts := [], intent := none, session_id := "s1" } } : ExchangeState).responseData =
          some { reply := "ok", charts := [], intent := none, session_id := "s1" }
      ∧ (chatSocketStep "s1" 0
            { initExchange with responseData := some { reply := "ok", charts := [], intent := none, session_id := "s1" } }
            ChatSocketEvent.socketClosed).promise =
          ({ initExchange with responseData := some { reply := "ok", charts := [], intent := none, session_id := "s1" } } : ExchangeState).promise.resolve
            { reply := "ok", charts := [], intent := none, session_id := "s1" }) :=
  ⟨⟨by decide, (c1_amended "s1" 0).1 [ChatSocketEvent.message thinkingThoughtFrame] (by decide)⟩,
   ⟨rfl, (c1_amended "s1" 0).2 _ _ rfl⟩⟩

/-- C5 counterexample: a per-exchange thought frame of kind found_insight
arrives while the processing flag is set; the claim says the flag is set
to false, but the code leaves it true (the per-exchange handler has no
clearing branch). -/
theorem c5_counterexample :
    (chatSocketStep "s1" 0 initExchange (ChatSocketEvent.message insightThoughtFrame)).isProcessing = true ∧
    ¬((chatSocketStep "s1" 0 initExchange (ChatSocketEvent.message insightThoughtFrame)).isProcessing = false) := by
  decide

/-- C5 (amended): ambient-stream events set the processing flag to true
for thinking/executing_sql kinds and to false for found_insight,
generating_chart and error kinds, but the per-exchange thought frames only
ever set the flag to true for thinking/executing_sql and leave it
unchanged for every other kind. -/
theorem c5_amended (now : Nat) (ast : AmbientState) (raw : RawThoughtFrame)
    (sid : String) (st : ExchangeState) (f : ChatFrame) :
    ((onThoughtStreamMessage now ast (some raw)).isProcessing =
        (if raw.type.getD "" = "thinking" ∨ raw.type.getD "" = "executing_sql" then true
         else if raw.type.getD "" = "found_insight" ∨ raw.type.getD "" = "generating_chart" ∨
             raw.type.getD "" = "error" then false
         else ast.isProcessing))
    ∧ (f.type = "thought" →
        (onChatFrame sid now st f).isProcessing =
          (if f.thought_type.getD "" = "thinking" ∨ f.thought_type.getD "" = "executing_sql" then true
           else st.isProcessing)) := by
  constructor
  · unfold onThoughtStreamMessage
    dsimp only
    by_cases hA : raw.type.getD "" = "thinking" ∨ raw.type.getD "" = "executing_sql"
    · have hB : ¬(raw.type.getD "" = "found_insight" ∨ raw.type.getD "" = "generating_chart" ∨
          raw.type.getD "" = "error") := by
        rcases hA with h | h <;> rw [h] <;> decide
      simp [hA, hB]
    · by_cases hB : raw.type.getD "" = "found_insight" ∨ raw.type.getD "" = "generating_chart" ∨
          raw.type.getD "" = "error"
      · simp [hA, hB]
      · simp [hA, hB]
  · intro hf
    have hns : f.type ≠ "response" := by rw [hf]; decide
    have hnd : ¬(f.type = "done" ∨ f.type = "response") := by rw [hf]; decide
    have hne : f.type ≠ "error" := by rw [hf]; decide
    unfold onChatFrame
    rw [chatResponseBranch_not sid _ f hns, chatTerminatorBranch_not _ f hnd,
      chatErrorBranch_not _ f hne]
    unfold chatThoughtBranch
    rw [if_pos hf]
    dsimp only
    by_cases hA : f.thought_type.getD "" = "thinking" ∨ f.thought_type.getD "" = "executing_sql"
    · simp [hA]
    · simp [hA]

/-- Witness for c5_amended at a concrete found_insight ambient frame and a
concrete thought frame on the exchange socket. -/
theorem c5_amended_witness :
    (insightThoughtFrame.type = "thought")
    ∧ (onChatFrame "s1" 0 initExchange insightThoughtFrame).isProcessing =
        (if insightThoughtFrame.thought_type.getD "" = "thinking" ∨
            insightThoughtFrame.thought_type.getD "" = "executing_sql" then true
         else initExchange.isProcessing) :=
  ⟨rfl, (c5_amended 0 ⟨[], true⟩ ⟨none, none, none, none⟩ "s1" initExchange insightThoughtFrame).2 rfl⟩

lemma saveCurrentToHistory_messages (st : ChatStoreState) (now : Nat) :
    (saveCurrentToHistory st now).messages = st.messages := by
  unfold saveCurrentToHistory
  split <;> rfl

lemma saveCurrentToHistory_sessionId (st : ChatStoreState) (now : Nat) :
    (saveCurrentToHistory st now).sessionId = st.sessionId := by
  unfold saveCurrentToHistory
  split <;> rfl

lemma jsFindIndex_none_of {p : SavedConversation → Bool} :
    ∀ {l : List SavedConversation}, (∀ c ∈ l, p c = false) → jsFindIndex p l = none := by
  intro l
  induction l with
  | nil => intro _; rfl
  | cons d ds ih =>
      intro h
      unfold jsFindIndex
      rw [if_neg (by rw [h d (List.mem_cons_self d ds)]; exact Bool.false_ne_true),
        ih (fun c hc => h c (List.mem_cons_of_mem d hc))]
      rfl

lemma saveCurrentToHistory_fresh (st : ChatStoreState) (now : Nat)
    (hm : ¬ st.messages = [])
    (hfresh : ∀ c ∈ st.history, ¬ c.id = st.sessionId)
    (hsorted : SortedByRecency st.history)
    (ht : ∀ c ∈ st.history, c.updatedAt ≤ now) :
    (saveCurrentToHistory st now).history =
      { id := st.sessionId, title := titleFromMessages st.messages,
        messages := st.messages, updatedAt := now } :: st.history
    ∧ (saveCurrentToHistory st now).persistedHistory =
        ({ id := st.sessionId, title := titleFromMessages st.messages,
           messages := st.messages, updatedAt := now } :: st.history).take 30 := by
  have hfind : jsFindIndex (fun c => c.id == st.sessionId) st.history = none := by
    apply jsFindIndex_none_of
    intro c hc
    exact beq_eq_false_iff_ne.mpr (hfresh c hc)
  have hsort : sortByRecency
      ({ id := st.sessionId, title := titleFromMessages st.messages,
         messages := st.messages, updatedAt := now } :: st.history) =
      { id := st.sessionId, title := titleFromMessages st.messages,
        messages := st.messages, updatedAt := now } :: st.history := by
    apply sortByRecency_of_sorted
    exact List.pairwise_cons.mpr ⟨fun b hb => ht b hb, hsorted⟩
  unfold saveCurrentToHistory
  rw [if_neg hm]
  simp only [hfind]
  exact ⟨by rw [hsort], by rw [hsort]⟩

lemma saveCurrentToHistory_spec (st : ChatStoreState) (now : Nat)
    (hm : ¬ st.messages = [])
    (ht : ∀ c ∈ st.history, c.updatedAt < now) :
    ∃ rest,
      (saveCurrentToHistory st now).history =
        { id := st.sessionId, title := titleFromMessages st.messages,
          messages := st.messages, updatedAt := now } :: rest
      ∧ (saveCurrentToHistory st now).persistedHistory =
          ({ id := st.sessionId, title := titleFromMessages st.messages,
             messages := st.messages, updatedAt := now } :: rest).take 30
      ∧ SortedByRecency rest
      ∧ (∀ c ∈ rest, c.updatedAt < now)
      ∧ ((st.history.map SavedConversation.id).Nodup →
          (({ id := st.sessionId, title := titleFromMessages st.messages,
              messages := st.messages, updatedAt := now } :: rest).map SavedConversation.id).Nodup) := by
  unfold saveCurrentToHistory
  rw [if_neg hm]
  rcases hfind : jsFindIndex (fun c => c.id == st.sessionId) st.history with _ | i
  · -- fresh session id: the conversation is prepended
    simp only [hfind]
    have hins : sortByRecency
        ({ id := st.sessionId, title := titleFromMessages st.messages,
           messages := st.messages, updatedAt := now } :: st.history) =
        { id := st.sessionId, title := titleFromMessages st.messages,
          messages := st.messages, updatedAt := now } :: sortByRecency st.history := by
      apply insertByRecency_front
      intro d hd
      exact le_of_lt (ht d (mem_sortByRecency.mp hd))
    refine ⟨sortByRecency st.history, by rw [hins], by rw [hins],
      sortByRecency_sorted st.history, ?_, ?_⟩
    · intro c hc
      exact ht c (mem_sortByRecency.mp hc)
    · intro hnd
      rw [List.map_cons]
      apply List.nodup_cons.mpr
      have hfresh := jsFindIndex_eq_none hfind
      constructor
      · intro hmem
        obtain ⟨c, hc, hcid⟩ :=
          List.mem_map.mp (((sortByRecency_perm st.history).map SavedConversation.id).mem_iff.mp hmem)
        exact beq_eq_false_iff_ne.mp (hfresh c hc) hcid
      · exact ((sortByRecency_perm st.history).map SavedConversation.id).symm.nodup hnd
  · -- existing record: it is replaced in place, then floats to the front
    obtain ⟨A, x, B, hsplit, hpx, hlen⟩ := jsFindIndex_split hfind
    have hxid : x.id = st.sessionId := by simpa using hpx
    simp only [hfind]
    have hset : st.history.set i
        { id := st.sessionId, title := titleFromMessages st.messages,
          messages := st.messages, updatedAt := now } =
        A ++ { id := st.sessionId, title := titleFromMessages st.messages,
               messages := st.messages, updatedAt := now } :: B := by
      rw [hsplit, ← hlen]
      exact set_at_append A x B _
    have hmax : ∀ d, d ∈ A ∨ d ∈ B → d.updatedAt <
        ({ id := st.sessionId, title := titleFromMessages st.messages,
           messages := st.messages, updatedAt := now } : SavedConversation).updatedAt := by
      intro d hd
      apply ht
      rw [hsplit]
      rcases hd with hd | hd
      · exact List.mem_append_left _ hd
      · exact List.mem_append_right _ (List.mem_cons_of_mem x hd)
    have hsort := sortByRecency_max_front A _ B hmax
    refine ⟨sortByRecency (A ++ B), by rw [hset, hsort], by rw [hset, hsort],
      sortByRecency_sorted _, ?_, ?_⟩
    · intro c hc
      apply ht
      rw [hsplit]
      rcases List.mem_append.mp (mem_sortByRecency.mp hc) with hd | hd
      · exact List.mem_append_left _ hd
      · exact List.mem_append_right _ (List.mem_cons_of_mem x hd)
    · intro hnd
      rw [hsplit, List.map_append, List.map_cons, hxid] at hnd
      have hnd2 : (st.sessionId ::
          (A.map SavedConversation.id ++ B.map SavedConversation.id)).Nodup :=
        List.perm_middle.nodup hnd
      obtain ⟨hnotin, hndAB⟩ := List.nodup_cons.mp hnd2
      rw [List.map_cons]
      apply List.nodup_cons.mpr
      constructor
      · intro hmem
        apply hnotin
        have := ((sortByRecency_perm (A ++ B)).map SavedConversation.id).mem_iff.mp hmem
        rw [List.map_append] at this
        exact this
      · have hperm := (sortByRecency_perm (A ++ B)).map SavedConversation.id
        apply hperm.symm.nodup
        rw [List.map_append]
        exact hndAB

lemma saveCurrentToHistory_head (st1 : ChatStoreState) (t2 : Nat)
    (convo : SavedConversation) (rest : List SavedConversation)
    (hm : ¬ st1.messages = [])
    (hh : st1.history = convo :: rest)
    (hid : convo.id = st1.sessionId)
    (hsorted : SortedByRecency rest)
    (ht : ∀ c ∈ rest, c.updatedAt ≤ t2) :
    (saveCurrentToHistory st1 t2).history =
      { id := st1.sessionId, title := titleFromMessages st1.messages,
        messages := st1.messages, updatedAt := t2 } :: rest
    ∧ (saveCurrentToHistory st1 t2).persistedHistory =
        ({ id := st1.sessionId, title := titleFromMessages st1.messages,
           messages := st1.messages, updatedAt := t2 } :: rest).take 30 := by
  have hfind : jsFindIndex (fun c => c.id == st1.sessionId) st1.history = some 0 := by
    rw [hh]
    unfold jsFindIndex
    rw [if_pos (by rw [hid]; exact beq_self_eq_true st1.sessionId)]
  have hsort : sortByRecency
      ({ id := st1.sessionId, title := titleFromMessages st1.messages,
         messages := st1.messages, updatedAt := t2 } :: rest) =
      { id := st1.sessionId, title := titleFromMessages st1.messages,
        messages := st1.messages, updatedAt := t2 } :: rest := by
    show insertByRecency _ (sortByRecency rest) = _
    rw [sortByRecency_of_sorted hsorted]
    exact insertByRecency_front _ (fun d hd => ht d hd)
  unfold saveCurrentToHistory
  rw [if_neg hm]
  simp only [hfind]
  rw [hh]
  exact ⟨by rw [List.set_cons_zero, hsort], by rw [List.set_cons_zero, hsort]⟩

/-- C8: archiving the same session again with an unchanged message log is
idempotent — a second flush at the same instant reproduces the store
exactly, a second flush at any later instant changes no record content
(ids, titles, message logs, and their order are identical, only the head
record's updatedAt moves), and the persisted collection never holds two
records with the same session id. -/
theorem c8_history_idempotence (st : ChatStoreState) (t t2 : Nat)
    (hm : st.messages ≠ [])
    (ht : ∀ c ∈ st.history, c.updatedAt < t)
    (htt : t ≤ t2)
    (hnd : (st.history.map SavedConversation.id).Nodup) :
    saveCurrentToHistory (saveCurrentToHistory st t) t = saveCurrentToHistory st t
    ∧ (saveCurrentToHistory (saveCurrentToHistory st t) t2).persistedHistory.map stripTime =
        (saveCurrentToHistory st t).persistedHistory.map stripTime
    ∧ ((saveCurrentToHistory st t).persistedHistory.map SavedConversation.id).Nodup := by
  obtain ⟨rest, hh, hp, hsorted, htimes, hndimp⟩ := saveCurrentToHistory_spec st t hm ht
  have hmsg1 := saveCurrentToHistory_messages st t
  have hsid1 := saveCurrentToHistory_sessionId st t
  have hm1 : ¬ (saveCurrentToHistory st t).messages = [] := by rw [hmsg1]; exact hm
  have hid1 : ({ id := st.sessionId, title := titleFromMessages st.messages,
                 messages := st.messages, updatedAt := t } : SavedConversation).id =
      (saveCurrentToHistory st t).sessionId := by rw [hsid1]
  have key : ∀ τ : Nat, t ≤ τ →
      (saveCurrentToHistory (saveCurrentToHistory st t) τ).history =
        { id := st.sessionId, title := titleFromMessages st.messages,
          messages := st.messages, updatedAt := τ } :: rest
      ∧ (saveCurrentToHistory (saveCurrentToHistory st t) τ).persistedHistory =
          ({ id := st.sessionId, title := titleFromMessages st.messages,
             messages := st.messages, updatedAt := τ } :: rest).take 30 := by
    intro τ hτ
    have hres := saveCurrentToHistory_head (saveCurrentToHistory st t) τ _ rest hm1 hh hid1
      hsorted (fun c hc => le_trans (le_of_lt (htimes c hc)) hτ)
    rw [hmsg1, hsid1] at hres
    exact hres
  refine ⟨?_, ?_, ?_⟩
  · obtain ⟨k1h, k1p⟩ := key t (le_refl t)
    apply ChatStoreState.ext
    · exact saveCurrentToHistory_messages _ _
    · exact saveCurrentToHistory_sessionId _ _
    · rw [k1h, hh]
    · rw [k1p, hp]
  · obtain ⟨_, k2p⟩ := key t2 htt
    rw [k2p, hp]
    rfl
  · rw [hp, List.map_take]
    exact List.Nodup.sublist (List.take_sublist 30 _) (hndimp hnd)

/-- Witness for c8_history_idempotence at a concrete one-message store. -/
theorem c8_history_idempotence_witness :
    (storeEx.messages ≠ [] ∧ (∀ c ∈ storeEx.history, c.updatedAt < 5) ∧ 5 ≤ 7
      ∧ (storeEx.history.map SavedConversation.id).Nodup)
    ∧ (saveCurrentToHistory (saveCurrentToHistory storeEx 5) 5 = saveCurrentToHistory storeEx 5
      ∧ (saveCurrentToHistory (saveCurrentToHistory storeEx 5) 7).persistedHistory.map stripTime =
          (saveCurrentToHistory storeEx 5).persistedHistory.map stripTime
      ∧ ((saveCurrentToHistory storeEx 5).persistedHistory.map SavedConversation.id).Nodup) :=
  ⟨⟨by decide, by decide, by decide, by decide⟩,
   c8_history_idempotence storeEx 5 7 (by decide) (by decide) (by decide) (by decide)⟩

lemma mkRecords_length : ∀ (t0 : Nat) (l : List (String × List ChatMessage)),
    (mkRecords t0 l).length = l.length := by
  intro t0 l
  induction l generalizing t0 with
  | nil => rfl
  | cons p rest ih =>
      obtain ⟨sid, msgs⟩ := p
      simp [mkRecords, ih]

lemma archiveFrom_spec : ∀ (sessions : List (String × List ChatMessage))
    (st : ChatStoreState) (t0 : Nat),
    SortedByRecency st.history →
    (∀ c ∈ st.history, c.updatedAt < t0) →
    st.persistedHistory = st.history.take 30 →
    (∀ p ∈ sessions, ¬ p.2 = []) →
    (sessions.map Prod.fst).Nodup →
    (∀ p ∈ sessions, ∀ c ∈ st.history, ¬ c.id = p.1) →
    (archiveFrom st t0 sessions).history = (mkRecords t0 sessions).reverse ++ st.history
    ∧ (archiveFrom st t0 sessions).persistedHistory =
        ((mkRecords t0 sessions).reverse ++ st.history).take 30 := by
  intro sessions
  induction sessions with
  | nil =>
      intro st t0 _ _ hpers _ _ _
      exact ⟨rfl, hpers⟩
  | cons sp rest ih =>
      intro st t0 hsorted ht hpers hne hnd hfresh
      obtain ⟨sid, msgs⟩ := sp
      have hm1 : ¬ ({ st with sessionId := sid, messages := msgs } : ChatStoreState).messages = [] :=
        hne (sid, msgs) (List.mem_cons_self _ _)
      have hfr : ∀ c ∈ ({ st with sessionId := sid, messages := msgs } : ChatStoreState).history,
          ¬ c.id = ({ st with sessionId := sid, messages := msgs } : ChatStoreState).sessionId :=
        fun c hc => hfresh (sid, msgs) (List.mem_cons_self _ _) c hc
      have ht1 : ∀ c ∈ ({ st with sessionId := sid, messages := msgs } : ChatStoreState).history,
          c.updatedAt ≤ t0 := fun c hc => le_of_lt (ht c hc)
      obtain ⟨hh2, hp2⟩ :=
        saveCurrentToHistory_fresh { st with sessionId := sid, messages := msgs } t0 hm1 hfr
          hsorted ht1
      have hh2' : (saveCurrentToHistory { st with sessionId := sid, messages := msgs } t0).history =
          mkRecord t0 sid msgs :: st.history := hh2
      have hp2' : (saveCurrentToHistory { st with sessionId := sid, messages := msgs } t0).persistedHistory =
          (mkRecord t0 sid msgs :: st.history).take 30 := hp2
      have hsorted2 : SortedByRecency
          (saveCurrentToHistory { st with sessionId := sid, messages := msgs } t0).history := by
        rw [hh2']
        exact List.pairwise_cons.mpr ⟨fun b hb => le_of_lt (ht b hb), hsorted⟩
      have ht2 : ∀ c ∈ (saveCurrentToHistory { st with sessionId := sid, messages := msgs } t0).history,
          c.updatedAt < t0 + 1 := by
        rw [hh2']
        intro c hc
        rcases List.mem_cons.mp hc with rfl | hc
        · exact Nat.lt_succ_self t0
        · exact Nat.lt_succ_of_lt (ht c hc)
      have hpers2 : (saveCurrentToHistory { st with sessionId := sid, messages := msgs } t0).persistedHistory =
          (saveCurrentToHistory { st with sessionId := sid, messages := msgs } t0).history.take 30 := by
        rw [hh2', hp2']
      have hne2 : ∀ p ∈ rest, ¬ p.2 = [] := fun p hp => hne p (List.mem_cons_of_mem _ hp)
      have hndc : (sid :: rest.map Prod.fst).Nodup := hnd
      have hnd2 : (rest.map Prod.fst).Nodup := (List.nodup_cons.mp hndc).2
      have hsidnot : sid ∉ rest.map Prod.fst := (List.nodup_cons.mp hndc).1
      have hfresh2 : ∀ p ∈ rest,
          ∀ c ∈ (saveCurrentToHistory { st with sessionId := sid, messages := msgs } t0).history,
          ¬ c.id = p.1 := by
        intro p hp c hc
        rw [hh2'] at hc
        rcases List.mem_cons.mp hc with rfl | hc
        · intro hcid
          have hsidp : sid = p.1 := hcid
          exact hsidnot (hsidp ▸ List.mem_map_of_mem Prod.fst hp)
        · exact hfresh p (List.mem_cons_of_mem _ hp) c hc
      obtain ⟨ih1, ih2⟩ := ih (saveCurrentToHistory { st with sessionId := sid, messages := msgs } t0)
        (t0 + 1) hsorted2 ht2 hpers2 hne2 hnd2 hfresh2
      constructor
      · show (archiveFrom (saveCurrentToHistory { st with sessionId := sid, messages := msgs } t0)
            (t0 + 1) rest).history = (mkRecords t0 ((sid, msgs) :: rest)).reverse ++ st.history
        rw [ih1, hh2']
        show _ = (mkRecord t0 sid msgs :: mkRecords (t0 + 1) rest).reverse ++ st.history
        rw [List.reverse_cons, List.append_assoc]
        rfl
      · show (archiveFrom (saveCurrentToHistory { st with sessionId := sid, messages := msgs } t0)
            (t0 + 1) rest).persistedHistory =
            ((mkRecords t0 ((sid, msgs) :: rest)).reverse ++ st.history).take 30
        rw [ih2, hh2']
        show _ = ((mkRecord t0 sid msgs :: mkRecords (t0 + 1) rest).reverse ++ st.history).take 30
        rw [List.reverse_cons, List.append_assoc]
        rfl

/-- C7: every flush persists at most 30 records ordered most recently
updated first, and archiving more than 30 distinct sessions leaves exactly
the records of the 30 most recently archived sessions, newest first, the
older ones having been evicted. -/
theorem c7_retention_bound :
    (∀ (st : ChatStoreState) (now : Nat), st.messages ≠ [] →
        (saveCurrentToHistory st now).persistedHistory.length ≤ 30
        ∧ SortedByRecency (saveCurrentToHistory st now).persistedHistory)
    ∧ (∀ sessions : List (String × List ChatMessage),
        30 < sessions.length →
        (sessions.map Prod.fst).Nodup →
        (∀ p ∈ sessions, p.2 ≠ []) →
        (archiveSessions sessions).persistedHistory = ((mkRecords 0 sessions).reverse).take 30
        ∧ (archiveSessions sessions).persistedHistory.length = 30) := by
  constructor
  · intro st now hm
    unfold saveCurrentToHistory
    rw [if_neg hm]
    constructor
    · exact List.length_take_le 30 _
    · exact List.Pairwise.sublist (List.take_sublist _ _) (sortByRecency_sorted _)
  · intro sessions hlen hnd hne
    obtain ⟨h1, h2⟩ := archiveFrom_spec sessions
      { messages := [], sessionId := "", history := [], persistedHistory := [] } 0
      List.Pairwise.nil (by intro c hc; cases hc) rfl (fun p hp => hne p hp) hnd
      (by intro p _ c hc; cases hc)
    have hp30 : (archiveSessions sessions).persistedHistory =
        ((mkRecords 0 sessions).reverse).take 30 := by
      show (archiveFrom { messages := [], sessionId := "", history := [], persistedHistory := [] }
          0 sessions).persistedHistory = _
      rw [h2, List.append_nil]
    refine ⟨hp30, ?_⟩
    rw [hp30, List.length_take, List.length_reverse, mkRecords_length]
    omega

/-- Witness for c7_retention_bound: a single-message flush and a concrete
run of 31 distinct sessions. -/
theorem c7_retention_bound_witness :
    (storeEx.messages ≠ []
      ∧ ((saveCurrentToHistory storeEx 5).persistedHistory.length ≤ 30
          ∧ SortedByRecency (saveCurrentToHistory storeEx 5).persistedHistory))
    ∧ ((30 < sessions31.length ∧ (sessions31.map Prod.fst).Nodup ∧ ∀ p ∈ sessions31, p.2 ≠ [])
      ∧ ((archiveSessions sessions31).persistedHistory = ((mkRecords 0 sessions31).reverse).take 30
          ∧ (archiveSessions sessions31).persistedHistory.length = 30)) :=
  ⟨⟨by decide, c7_retention_bound.1 storeEx 5 (by decide)⟩,
   ⟨⟨by decide, by decide, by decide⟩,
    c7_retention_bound.2 sessions31 (by decide) (by decide) (by decide)⟩⟩

/-- C3 (code behavior at the failing input): connect the thought stream,
invoke the canceller, then let the close event of the just-cancelled
socket fire. The canceller leaves no pending timer, but the close handler
schedules a fresh reconnect timer, and its firing reopens the stream. -/
theorem c3_cancel_then_close_schedules_reconnect :
    (disconnectThoughtStream (connectThoughtStreamStep ⟨false, false⟩)).reconnectTimerPending = false
    ∧ (thoughtStreamOnClose (disconnectThoughtStream (connectThoughtStreamStep ⟨false, false⟩))).reconnectTimerPending = true
    ∧ (reconnectTimerFire (thoughtStreamOnClose (disconnectThoughtStream (connectThoughtStreamStep ⟨false, false⟩)))).hasSocket = true := by
  decide

end AlexCoo
